import Mathlib

/-!
Verification of the core of `tls_cert_discovery.py`: a scanner that fetches
the TLS certificate of each target, extracts the certificate's
subjectAltName (SAN) entries, resolves each SAN name to an IP address
through a process-wide cache, and flags resolved addresses that are not in
the original target list as newly discovered hosts.

The network and the certificate parser are modelled as oracle functions
passed explicitly (`net`, `parse`, `dns`); the Python global cache
`SAN_CACHE_DICT` and the result dictionary become explicit association
lists with Python-dict semantics (insert keeps position of an existing
key, appends a fresh key).  DNS lookups actually issued are recorded in a
log so that "no second network call" style properties are statable.
-/

namespace TlsCertDiscovery

/-- Python-dict membership/lookup on an association list. -/
def dictFind {α : Type} : List (String × α) → String → Option α
  | [], _ => none
  | (k', v') :: rest, k => if k' = k then some v' else dictFind rest k

/-- Python-dict assignment `d[k] = v`: overwrite in place if the key
exists, otherwise append the new key at the end (insertion order). -/
def dictInsert {α : Type} : List (String × α) → String → α → List (String × α)
  | [], k, v => [(k, v)]
  | (k', v') :: rest, k, v =>
    if k' = k then (k, v) :: rest else (k', v') :: dictInsert rest k v

/-- The keys of a dict, in insertion order. -/
def dictKeys {α : Type} (d : List (String × α)) : List String :=
  d.map (fun p => p.1)

/-- Whether the first character list is an initial segment of the second. -/
def startsWithChars : List Char → List Char → Bool
  | [], _ => true
  | _ :: _, [] => false
  | p :: ps, c :: cs => p = c && startsWithChars ps cs

/-- Whether the pattern occurs as a contiguous run somewhere in the list. -/
def occursIn (pat : List Char) : List Char → Bool
  | [] => startsWithChars pat []
  | c :: cs => startsWithChars pat (c :: cs) || occursIn pat cs

/-- Python's substring operator `pat in s`: `pat` occurs somewhere in `s`. -/
def strIn (pat s : String) : Bool := occursIn pat.data s.data

/-- Split a character list at every occurrence of the separator, keeping
empty chunks — the semantics of Python's `str.split(sep)` for a
one-character separator. -/
def splitAtChar (sep : Char) : List Char → List (List Char)
  | [] => [[]]
  | c :: cs =>
    let r := splitAtChar sep cs
    if c = sep then [] :: r
    else
      match r with
      | [] => [[c]]
      | hd :: tl => (c :: hd) :: tl

/-- Python's `s.split(sep)` for a one-character separator. -/
def pySplit (sep : Char) (s : String) : List String :=
  (splitAtChar sep s.data).map (fun l => ⟨l⟩)

/-- The ASCII whitespace characters Python's `str.strip()` removes. -/
def charIsSpace (c : Char) : Bool :=
  c = ' ' || c = '\t' || c = '\n' || c = '\r' || c = '\x0b' || c = '\x0c'

/-- Remove leading and trailing whitespace characters. -/
def listTrim (l : List Char) : List Char :=
  ((l.dropWhile charIsSpace).reverse.dropWhile charIsSpace).reverse

/-- Python's `s.strip()`. -/
def pyStrip (s : String) : String := ⟨listTrim s.data⟩

/-- Python's character slice `s[n:]`. -/
def pyDrop (n : Nat) (s : String) : String := ⟨s.data.drop n⟩

/-- Failure modes of the TLS connection, all swallowed by the bare
`except:` of `extract_tls_cert`. -/
inductive NetErr : Type
  | refused
  | timeout
  | handshake
  | dnsFailure
  deriving DecidableEq, Repr

/-- `extract_tls_cert(host)`: `ssl.get_server_certificate((host, 443))`
under `try/except: pass` — any failure of the network oracle becomes the
absence value `None`, a success is returned as the PEM certificate. -/
def extract_tls_cert (net : String → Except NetErr String) (host : String) :
    Option String :=
  match net host with
  | Except.ok cert => some cert
  | Except.error _ => none

/-- One parsed X.509 extension as pyOpenSSL exposes it: a short name
(`ext.get_short_name()`) and the textual rendering (`ext.__str__()`). -/
structure X509Ext : Type where
  shortName : String
  text : String
  deriving DecidableEq, Repr

/-- A parsed certificate: its ordered list of extensions. -/
structure X509Cert : Type where
  extensions : List X509Ext
  deriving DecidableEq, Repr

/-- `extract_subject_alternate_name_list(cert)`: parse the PEM (the parse
oracle models `OpenSSL.crypto.load_certificate`, `none` for a parse
failure caught by the bare `except:`), then scan the extensions in order;
each extension whose short name contains `subjectAltName` resets `san` to
the comma-split of its text with each chunk stripped and its first 4
characters removed (`d.strip()[4:]`). -/
def extract_subject_alternate_name_list (parse : String → Option X509Cert)
    (cert : String) : Option (List String) :=
  match parse cert with
  | none => none
  | some x509 =>
    x509.extensions.foldl
      (fun san ext =>
        if strIn "subjectAltName" ext.shortName then
          some ((pySplit ',' ext.text).foldl
            (fun acc d => acc ++ [pyDrop 4 (pyStrip d)]) [])
        else san)
      none

/-- The state threaded through `extract_san_ip`: the per-call `result`
dict, the global `SAN_CACHE_DICT`, and the log of DNS lookups actually
issued (each `socket.gethostbyname` call). -/
structure SanIpOut : Type where
  result : List (String × String)
  cache : List (String × String)
  dnsLog : List String
  deriving DecidableEq, Repr

/-- One iteration of the `extract_san_ip` loop: pre-set the result to the
`0.0.0.0` sentinel; skip wildcard names entirely; otherwise consult the
cache, and on a miss issue the DNS lookup, recording a success in both
dicts — a lookup failure raises before the cache assignment, so the bare
`except:` leaves the sentinel in `result` and the cache untouched. -/
def sanIpStep (dns : String → Option String) (st : SanIpOut)
    (san_item : String) : SanIpOut :=
  let st1 : SanIpOut := { st with result := dictInsert st.result san_item "0.0.0.0" }
  if strIn "*" san_item then st1
  else
    match dictFind st1.cache san_item with
    | none =>
      match dns san_item with
      | some ip =>
        { result := dictInsert st1.result san_item ip,
          cache := dictInsert st1.cache san_item ip,
          dnsLog := st1.dnsLog ++ [san_item] }
      | none => { st1 with dnsLog := st1.dnsLog ++ [san_item] }
    | some v => { st1 with result := dictInsert st1.result san_item v }

/-- `extract_san_ip(san_list)` with the global cache made explicit:
fold the per-item step over the SAN list, starting from an empty result
dict and an empty DNS log. -/
def extract_san_ip (dns : String → Option String)
    (cache : List (String × String)) (san_list : List String) : SanIpOut :=
  san_list.foldl (sanIpStep dns) ⟨[], cache, []⟩

/-- One `san_infos` record of the classification loop. -/
structure SanInfos : Type where
  SAN : String
  IP : String
  IS_NEW_HOST : Bool
  deriving DecidableEq, Repr

/-- The classification body of the `__main__` loop: sentinel check first,
then membership of the resolved IP in the original target list, else
not new. -/
def classifySan (targets : List String) (san_item san_ip : String) : SanInfos :=
  { SAN := san_item, IP := san_ip,
    IS_NEW_HOST :=
      if san_ip = "0.0.0.0" then false
      else if ¬ (san_ip ∈ targets) then true
      else false }

/-- The inner record loop: one record per SAN occurrence, each looking
its IP up in the per-call result dict (every SAN in the list is a key, so
the `0.0.0.0` default of the total lookup is never used). -/
def mkSanRecords (targets : List String) (sanIp : List (String × String))
    (sans : List String) : List SanInfos :=
  sans.map (fun s => classifySan targets s ((dictFind sanIp s).getD "0.0.0.0"))

/-- The orchestrator's state: the `data` result mapping, the global SAN
cache, the cumulative DNS log, and the log of certificate fetches
(one entry per processed target). -/
structure ScanState : Type where
  data : List (String × List SanInfos)
  cache : List (String × String)
  dnsLog : List String
  fetchLog : List String
  deriving DecidableEq, Repr

/-- One iteration of the `__main__` scan loop over `targets`: fetch the
certificate, extract the SAN list, and when it is non-empty resolve it
and store the classified records under `current_ip + ":443"`
(`data[data_key] = []` followed by appends — the key is reset, not
extended). -/
def scanStep (net : String → Except NetErr String)
    (parse : String → Option X509Cert) (dns : String → Option String)
    (targets : List String) (st : ScanState) (current_ip : String) : ScanState :=
  let st1 : ScanState := { st with fetchLog := st.fetchLog ++ [current_ip] }
  let data_key := current_ip ++ ":443"
  match extract_tls_cert net current_ip with
  | none => st1
  | some cert =>
    match extract_subject_alternate_name_list parse cert with
    | none => st1
    | some sans =>
      if 0 < sans.length then
        let out := extract_san_ip dns st1.cache sans
        { data := dictInsert st1.data data_key (mkSanRecords targets out.result sans),
          cache := out.cache,
          dnsLog := st1.dnsLog ++ out.dnsLog,
          fetchLog := st1.fetchLog }
      else st1

/-- The initial orchestrator state: empty result mapping, empty cache,
empty logs. -/
def scanInit : ScanState := ⟨[], [], [], []⟩

/-- The whole `__main__` scan loop: fold `scanStep` over the target list;
the same list is also the reference set for `isNewHost` classification. -/
def runScan (net : String → Except NetErr String)
    (parse : String → Option X509Cert) (dns : String → Option String)
    (targets : List String) : ScanState :=
  targets.foldl (scanStep net parse dns targets) scanInit

/-- A target yields SAN records exactly when its certificate fetch
succeeds and SAN extraction returns a non-empty list. -/
def yieldsSan (net : String → Except NetErr String)
    (parse : String → Option X509Cert) (t : String) : Bool :=
  match extract_tls_cert net t with
  | none => false
  | some cert =>
    match extract_subject_alternate_name_list parse cert with
    | none => false
    | some sans => decide (0 < sans.length)

/-- The characters after the first `:` of the list (everything when no
`:` occurs is dropped to the empty list). -/
def afterColon : List Char → List Char
  | [] => []
  | c :: cs => if c = ':' then cs else afterColon cs

/-- The bare name of a textual SAN entry as the spec describes it: the
part after the type tag's `:` delimiter (modelled from the spec's words
"trimming each entry's type prefix (e.g., a `DNS:` tag) to leave the
bare name", to compare against what the code computes). -/
def bareName (s : String) : String := ⟨afterColon s.data⟩

/-- The SAN list a given target yields (empty stands for "no SAN"): the
value extraction produces on the target's certificate. -/
def sanListOf (net : String → Except NetErr String)
    (parse : String → Option X509Cert) (t : String) : List String :=
  match extract_tls_cert net t with
  | none => []
  | some cert => (extract_subject_alternate_name_list parse cert).getD []

/-! ### Dictionary lemmas -/

theorem dictFind_insert {α : Type} (d : List (String × α)) (k k' : String) (v : α) :
    dictFind (dictInsert d k v) k' = if k = k' then some v else dictFind d k' := by
  induction d with
  | nil => by_cases h : k = k' <;> simp [dictInsert, dictFind, h]
  | cons p rest ih =>
    obtain ⟨k₀, v₀⟩ := p
    by_cases h : k₀ = k
    · subst h
      by_cases h2 : k₀ = k' <;> simp [dictInsert, dictFind, h2]
    · by_cases h2 : k₀ = k'
      · subst h2
        have hk : ¬ k = k₀ := fun e => h e.symm
        simp [dictInsert, dictFind, h, hk]
      · simp [dictInsert, dictFind, h, h2, ih]

theorem dictFind_insert_self {α : Type} (d : List (String × α)) (k : String) (v : α) :
    dictFind (dictInsert d k v) k = some v := by
  simp [dictFind_insert]

theorem dictFind_insert_ne {α : Type} (d : List (String × α)) (k k' : String) (v : α)
    (h : k ≠ k') : dictFind (dictInsert d k v) k' = dictFind d k' := by
  simp [dictFind_insert, h]

theorem dictKeys_cons {α : Type} (p : String × α) (rest : List (String × α)) :
    dictKeys (p :: rest) = p.1 :: dictKeys rest := rfl

theorem dictKeys_insert {α : Type} (d : List (String × α)) (k : String) (v : α) :
    dictKeys (dictInsert d k v) =
      if k ∈ dictKeys d then dictKeys d else dictKeys d ++ [k] := by
  induction d with
  | nil => simp [dictInsert, dictKeys]
  | cons p rest ih =>
    obtain ⟨k₀, v₀⟩ := p
    by_cases h : k₀ = k
    · subst h
      simp [dictInsert, dictKeys_cons]
    · have hk : ¬ k = k₀ := fun e => h e.symm
      by_cases h2 : k ∈ dictKeys rest
      · simp [dictInsert, h, dictKeys_cons, ih, h2, hk]
      · simp [dictInsert, h, dictKeys_cons, ih, h2, hk]

theorem mem_dictKeys_insert {α : Type} (d : List (String × α)) (k k' : String) (v : α) :
    k' ∈ dictKeys (dictInsert d k v) ↔ k' = k ∨ k' ∈ dictKeys d := by
  rw [dictKeys_insert]
  by_cases h : k ∈ dictKeys d
  · simp [h]
    intro e
    subst e
    exact h
  · simp [h, or_comm]

theorem dictKeys_nodup_insert {α : Type} (d : List (String × α)) (k : String) (v : α)
    (h : (dictKeys d).Nodup) : (dictKeys (dictInsert d k v)).Nodup := by
  rw [dictKeys_insert]
  by_cases h2 : k ∈ dictKeys d
  · simp [h2, h]
  · simp [h2, List.nodup_append, h]

theorem mem_dictKeys_iff_find {α : Type} (d : List (String × α)) (k : String) :
    k ∈ dictKeys d ↔ (dictFind d k).isSome := by
  induction d with
  | nil => simp [dictKeys, dictFind]
  | cons p rest ih =>
    obtain ⟨k₀, v₀⟩ := p
    by_cases h : k₀ = k
    · subst h
      simp [dictKeys_cons, dictFind]
    · have hk : ¬ k = k₀ := fun e => h e.symm
      simp [dictKeys_cons, dictFind, h, hk, ih]

/-! ### Characterization of one `extract_san_ip` iteration -/

theorem sanIpStep_wild (dns : String → Option String) (st : SanIpOut) (s : String)
    (hw : strIn "*" s = true) :
    sanIpStep dns st s = { st with result := dictInsert st.result s "0.0.0.0" } := by
  simp [sanIpStep, hw]

theorem sanIpStep_hit (dns : String → Option String) (st : SanIpOut) (s v : String)
    (hw : strIn "*" s = false) (hc : dictFind st.cache s = some v) :
    sanIpStep dns st s =
      { st with result := dictInsert (dictInsert st.result s "0.0.0.0") s v } := by
  simp [sanIpStep, hw, hc]

theorem sanIpStep_miss_ok (dns : String → Option String) (st : SanIpOut) (s ip : String)
    (hw : strIn "*" s = false) (hc : dictFind st.cache s = none) (hd : dns s = some ip) :
    sanIpStep dns st s =
      { result := dictInsert (dictInsert st.result s "0.0.0.0") s ip,
        cache := dictInsert st.cache s ip,
        dnsLog := st.dnsLog ++ [s] } := by
  simp [sanIpStep, hw, hc, hd]

theorem sanIpStep_miss_fail (dns : String → Option String) (st : SanIpOut) (s : String)
    (hw : strIn "*" s = false) (hc : dictFind st.cache s = none) (hd : dns s = none) :
    sanIpStep dns st s =
      { st with result := dictInsert st.result s "0.0.0.0",
                dnsLog := st.dnsLog ++ [s] } := by
  simp [sanIpStep, hw, hc, hd]

/-- A cache binding is never overwritten by one resolution step. -/
theorem sanIpStep_cache_mono (dns : String → Option String) (st : SanIpOut)
    (s k v : String) (h : dictFind st.cache k = some v) :
    dictFind (sanIpStep dns st s).cache k = some v := by
  by_cases hw : strIn "*" s
  · rw [sanIpStep_wild dns st s hw]
    exact h
  · cases hc : dictFind st.cache s with
    | none =>
      cases hd : dns s with
      | none =>
        rw [sanIpStep_miss_fail dns st s (by simp [hw]) hc hd]
        exact h
      | some ip =>
        rw [sanIpStep_miss_ok dns st s ip (by simp [hw]) hc hd]
        have hks : s ≠ k := by
          intro e
          subst e
          rw [h] at hc
          exact Option.noConfusion hc
        simpa [dictFind_insert_ne _ _ _ _ hks] using h
    | some v' =>
      rw [sanIpStep_hit dns st s v' (by simp [hw]) hc]
      exact h

/-- A cache binding is never overwritten by a whole `extract_san_ip` fold. -/
theorem sanIpFold_cache_mono (dns : String → Option String) (l : List String) :
    ∀ (st : SanIpOut) (k v : String), dictFind st.cache k = some v →
      dictFind (List.foldl (sanIpStep dns) st l).cache k = some v := by
  induction l with
  | nil => intro st k v h; exact h
  | cons s rest ih =>
    intro st k v h
    exact ih (sanIpStep dns st s) k v (sanIpStep_cache_mono dns st s k v h)

/-- The cache keeps pairwise-distinct keys across one resolution step. -/
theorem sanIpStep_cache_nodup (dns : String → Option String) (st : SanIpOut)
    (s : String) (h : (dictKeys st.cache).Nodup) :
    (dictKeys (sanIpStep dns st s).cache).Nodup := by
  by_cases hw : strIn "*" s
  · rw [sanIpStep_wild dns st s hw]; exact h
  · cases hc : dictFind st.cache s with
    | none =>
      cases hd : dns s with
      | none => rw [sanIpStep_miss_fail dns st s (by simp [hw]) hc hd]; exact h
      | some ip =>
        rw [sanIpStep_miss_ok dns st s ip (by simp [hw]) hc hd]
        exact dictKeys_nodup_insert _ _ _ h
    | some v' => rw [sanIpStep_hit dns st s v' (by simp [hw]) hc]; exact h

/-- The cache keeps pairwise-distinct keys across a whole fold. -/
theorem sanIpFold_cache_nodup (dns : String → Option String) (l : List String) :
    ∀ (st : SanIpOut), (dictKeys st.cache).Nodup →
      (dictKeys (List.foldl (sanIpStep dns) st l).cache).Nodup := by
  induction l with
  | nil => intro st h; exact h
  | cons s rest ih => intro st h; exact ih _ (sanIpStep_cache_nodup dns st s h)

/-- One step only touches the result binding of the SAN it processes. -/
theorem sanIpStep_result_ne (dns : String → Option String) (st : SanIpOut)
    (s k : String) (h : s ≠ k) :
    dictFind (sanIpStep dns st s).result k = dictFind st.result k := by
  by_cases hw : strIn "*" s
  · rw [sanIpStep_wild dns st s hw]
    exact dictFind_insert_ne _ _ _ _ h
  · cases hc : dictFind st.cache s with
    | none =>
      cases hd : dns s with
      | none =>
        rw [sanIpStep_miss_fail dns st s (by simp [hw]) hc hd]
        exact dictFind_insert_ne _ _ _ _ h
      | some ip =>
        rw [sanIpStep_miss_ok dns st s ip (by simp [hw]) hc hd]
        rw [dictFind_insert_ne _ _ _ _ h, dictFind_insert_ne _ _ _ _ h]
    | some v' =>
      rw [sanIpStep_hit dns st s v' (by simp [hw]) hc]
      rw [dictFind_insert_ne _ _ _ _ h, dictFind_insert_ne _ _ _ _ h]

/-- Result keys after one step: the processed SAN joins the key set. -/
theorem sanIpStep_result_mem (dns : String → Option String) (st : SanIpOut)
    (s k : String) :
    k ∈ dictKeys (sanIpStep dns st s).result ↔ k = s ∨ k ∈ dictKeys st.result := by
  by_cases hw : strIn "*" s
  · rw [sanIpStep_wild dns st s hw]
    exact mem_dictKeys_insert _ _ _ _
  · cases hc : dictFind st.cache s with
    | none =>
      cases hd : dns s with
      | none =>
        rw [sanIpStep_miss_fail dns st s (by simp [hw]) hc hd]
        exact mem_dictKeys_insert _ _ _ _
      | some ip =>
        rw [sanIpStep_miss_ok dns st s ip (by simp [hw]) hc hd]
        simp [mem_dictKeys_insert]
    | some v' =>
      rw [sanIpStep_hit dns st s v' (by simp [hw]) hc]
      simp [mem_dictKeys_insert]

/-- Result keys stay pairwise distinct across one step. -/
theorem sanIpStep_result_nodup (dns : String → Option String) (st : SanIpOut)
    (s : String) (h : (dictKeys st.result).Nodup) :
    (dictKeys (sanIpStep dns st s).result).Nodup := by
  by_cases hw : strIn "*" s
  · rw [sanIpStep_wild dns st s hw]
    exact dictKeys_nodup_insert _ _ _ h
  · cases hc : dictFind st.cache s with
    | none =>
      cases hd : dns s with
      | none =>
        rw [sanIpStep_miss_fail dns st s (by simp [hw]) hc hd]
        exact dictKeys_nodup_insert _ _ _ h
      | some ip =>
        rw [sanIpStep_miss_ok dns st s ip (by simp [hw]) hc hd]
        exact dictKeys_nodup_insert _ _ _ (dictKeys_nodup_insert _ _ _ h)
    | some v' =>
      rw [sanIpStep_hit dns st s v' (by simp [hw]) hc]
      exact dictKeys_nodup_insert _ _ _ (dictKeys_nodup_insert _ _ _ h)

/-- Result keys of a fold: exactly the processed SANs plus what was there. -/
theorem sanIpFold_result_mem (dns : String → Option String) (l : List String) :
    ∀ (st : SanIpOut) (k : String),
      k ∈ dictKeys (List.foldl (sanIpStep dns) st l).result ↔
        k ∈ l ∨ k ∈ dictKeys st.result := by
  induction l with
  | nil => intro st k; simp
  | cons s rest ih =>
    intro st k
    rw [List.foldl_cons, ih]
    rw [sanIpStep_result_mem]
    constructor
    · rintro (h | h | h)
      · exact Or.inl (List.mem_cons_of_mem s h)
      · exact Or.inl (by simp [h])
      · exact Or.inr h
    · rintro (h | h)
      · rcases List.mem_cons.mp h with h | h
        · exact Or.inr (Or.inl h)
        · exact Or.inl h
      · exact Or.inr (Or.inr h)

/-- Result keys stay pairwise distinct across a fold. -/
theorem sanIpFold_result_nodup (dns : String → Option String) (l : List String) :
    ∀ (st : SanIpOut), (dictKeys st.result).Nodup →
      (dictKeys (List.foldl (sanIpStep dns) st l).result).Nodup := by
  induction l with
  | nil => intro st h; exact h
  | cons s rest ih => intro st h; exact ih _ (sanIpStep_result_nodup dns st s h)

/-- A wildcard SAN's result binding is always absent or the sentinel. -/
theorem sanIpFold_result_wild (dns : String → Option String) (l : List String)
    (s : String) (hw : strIn "*" s = true) :
    ∀ (st : SanIpOut),
      (dictFind st.result s = none ∨ dictFind st.result s = some "0.0.0.0") →
      (dictFind (List.foldl (sanIpStep dns) st l).result s = none ∨
       dictFind (List.foldl (sanIpStep dns) st l).result s = some "0.0.0.0") := by
  induction l with
  | nil => intro st h; exact h
  | cons x rest ih =>
    intro st h
    refine ih (sanIpStep dns st x) ?_
    by_cases hx : x = s
    · subst hx
      rw [sanIpStep_wild dns st x hw]
      exact Or.inr (dictFind_insert_self _ _ _)
    · rw [sanIpStep_result_ne dns st x s hx]
      exact h

/-- Every DNS lookup a fold issues is for a non-wildcard name. -/
theorem sanIpFold_dnsLog_no_wild (dns : String → Option String) (l : List String) :
    ∀ (st : SanIpOut), (∀ q ∈ st.dnsLog, strIn "*" q = false) →
      ∀ q ∈ (List.foldl (sanIpStep dns) st l).dnsLog, strIn "*" q = false := by
  induction l with
  | nil => intro st h; exact h
  | cons s rest ih =>
    intro st h
    refine ih (sanIpStep dns st s) ?_
    intro q hq
    by_cases hw : strIn "*" s
    · rw [sanIpStep_wild dns st s hw] at hq
      exact h q hq
    · cases hc : dictFind st.cache s with
      | none =>
        cases hd : dns s with
        | none =>
          rw [sanIpStep_miss_fail dns st s (by simp [hw]) hc hd] at hq
          simp at hq
          rcases hq with hq | hq
          · exact h q hq
          · subst hq; simp [hw]
        | some ip =>
          rw [sanIpStep_miss_ok dns st s ip (by simp [hw]) hc hd] at hq
          simp at hq
          rcases hq with hq | hq
          · exact h q hq
          · subst hq; simp [hw]
      | some v' =>
        rw [sanIpStep_hit dns st s v' (by simp [hw]) hc] at hq
        exact h q hq

/-! ### Characterization of one scan iteration -/

/-- One scan iteration, split on whether the target yields SAN records:
a yielding target resets its `data` key to the freshly classified
records; any other target only extends the fetch log. -/
theorem scanStep_eq (net : String → Except NetErr String)
    (parse : String → Option X509Cert) (dns : String → Option String)
    (ts : List String) (st : ScanState) (t : String) :
    scanStep net parse dns ts st t =
      if yieldsSan net parse t = true then
        { data := dictInsert st.data (t ++ ":443")
            (mkSanRecords ts (extract_san_ip dns st.cache (sanListOf net parse t)).result
              (sanListOf net parse t)),
          cache := (extract_san_ip dns st.cache (sanListOf net parse t)).cache,
          dnsLog := st.dnsLog ++ (extract_san_ip dns st.cache (sanListOf net parse t)).dnsLog,
          fetchLog := st.fetchLog ++ [t] }
      else { st with fetchLog := st.fetchLog ++ [t] } := by
  unfold scanStep yieldsSan sanListOf
  cases hc : extract_tls_cert net t with
  | none => simp
  | some cert =>
    cases hs : extract_subject_alternate_name_list parse cert with
    | none => simp [hs]
    | some sans =>
      by_cases hl : 0 < sans.length
      · simp [hs, hl]
      · simp [hs, hl]

/-- The fetch log records every processed target, in order. -/
theorem scanFold_fetchLog (net : String → Except NetErr String)
    (parse : String → Option X509Cert) (dns : String → Option String)
    (ts : List String) (l : List String) :
    ∀ (st : ScanState),
      (List.foldl (scanStep net parse dns ts) st l).fetchLog = st.fetchLog ++ l := by
  induction l with
  | nil => intro st; simp
  | cons t rest ih =>
    intro st
    rw [List.foldl_cons, ih]
    rw [scanStep_eq]
    by_cases h : yieldsSan net parse t = true
    · simp [h]
    · simp [h]

/-- Key presence in the result mapping after a fold: a key is present
exactly when it was already present or some processed target yields SAN
records under that key. -/
theorem scanFold_data_keys (net : String → Except NetErr String)
    (parse : String → Option X509Cert) (dns : String → Option String)
    (ts : List String) (l : List String) :
    ∀ (st : ScanState) (k : String),
      k ∈ dictKeys (List.foldl (scanStep net parse dns ts) st l).data ↔
        k ∈ dictKeys st.data ∨
          ∃ t, t ∈ l ∧ k = t ++ ":443" ∧ yieldsSan net parse t = true := by
  induction l with
  | nil => intro st k; simp
  | cons t rest ih =>
    intro st k
    rw [List.foldl_cons, ih]
    rw [scanStep_eq]
    by_cases h : yieldsSan net parse t = true
    · simp only [h, if_pos]
      rw [mem_dictKeys_insert]
      constructor
      · rintro ((hk | hk) | ⟨t', ht', hk, hy⟩)
        · exact Or.inr ⟨t, List.mem_cons_self t rest, hk, h⟩
        · exact Or.inl hk
        · exact Or.inr ⟨t', List.mem_cons_of_mem t ht', hk, hy⟩
      · rintro (hk | ⟨t', ht', hk, hy⟩)
        · exact Or.inl (Or.inr hk)
        · rcases List.mem_cons.mp ht' with he | he
          · subst he
            exact Or.inl (Or.inl hk)
          · exact Or.inr ⟨t', he, hk, hy⟩
    · simp only [h, if_neg, Bool.false_eq_true, not_false_eq_true]
      constructor
      · rintro (hk | ⟨t', ht', hk, hy⟩)
        · exact Or.inl hk
        · exact Or.inr ⟨t', List.mem_cons_of_mem t ht', hk, hy⟩
      · rintro (hk | ⟨t', ht', hk, hy⟩)
        · exact Or.inl hk
        · rcases List.mem_cons.mp ht' with he | he
          · subst he
            rw [hy] at h
            exact absurd rfl h
          · exact Or.inr ⟨t', he, hk, hy⟩

/-! ### Record-level lemmas -/

/-- The boolean the classifier computes, as a proposition. -/
theorem classifySan_isNewHost (ts : List String) (s ip : String) :
    (classifySan ts s ip).IS_NEW_HOST = true ↔ (ip ≠ "0.0.0.0" ∧ ip ∉ ts) := by
  unfold classifySan
  by_cases h0 : ip = "0.0.0.0"
  · simp [h0]
  · by_cases hm : ip ∈ ts
    · simp [h0, hm]
    · simp [h0, hm]

theorem classifySan_SAN (ts : List String) (s ip : String) :
    (classifySan ts s ip).SAN = s := rfl

theorem classifySan_IP (ts : List String) (s ip : String) :
    (classifySan ts s ip).IP = ip := rfl

/-- The record loop emits one record per SAN occurrence, carrying that
SAN, in the SAN list's order. -/
theorem mkSanRecords_map_SAN (ts : List String) (d : List (String × String))
    (sans : List String) :
    (mkSanRecords ts d sans).map (fun r => r.SAN) = sans := by
  unfold mkSanRecords
  rw [List.map_map]
  have he : ((fun r : SanInfos => r.SAN) ∘
      fun s => classifySan ts s ((dictFind d s).getD "0.0.0.0")) = fun s => s := by
    funext s
    rfl
  rw [he]
  exact List.map_id sans

theorem mkSanRecords_length (ts : List String) (d : List (String × String))
    (sans : List String) : (mkSanRecords ts d sans).length = sans.length := by
  unfold mkSanRecords
  exact List.length_map _ _

/-- Shape of the emitted records: each one classifies its SAN against
the looked-up resolved address. -/
theorem mem_mkSanRecords (ts : List String) (d : List (String × String))
    (sans : List String) (r : SanInfos) (h : r ∈ mkSanRecords ts d sans) :
    ∃ s, s ∈ sans ∧ r = classifySan ts s ((dictFind d s).getD "0.0.0.0") := by
  unfold mkSanRecords at h
  rcases List.mem_map.mp h with ⟨s, hs, he⟩
  exact ⟨s, hs, he.symm⟩

/-- A yielding target's SAN list is non-empty. -/
theorem yieldsSan_length_pos (net : String → Except NetErr String)
    (parse : String → Option X509Cert) (t : String)
    (hy : yieldsSan net parse t = true) : 0 < (sanListOf net parse t).length := by
  unfold yieldsSan at hy
  unfold sanListOf
  cases hc : extract_tls_cert net t with
  | none => rw [hc] at hy; simp at hy
  | some cert =>
    rw [hc] at hy
    simp at hy ⊢
    cases hs : extract_subject_alternate_name_list parse cert with
    | none => rw [hs] at hy; simp at hy
    | some sans =>
      rw [hs] at hy
      simp at hy ⊢
      exact hy

/-- Every record stored by a scan fold satisfies any property `P` that
holds of all records the classifier can actually emit (classification of
a SAN from its per-call resolution result). -/
theorem scanFold_records_prop (net : String → Except NetErr String)
    (parse : String → Option X509Cert) (dns : String → Option String)
    (ts : List String) (P : SanInfos → Prop)
    (hP : ∀ (cache : List (String × String)) (sans : List String) (s : String),
      s ∈ sans →
      P (classifySan ts s
        ((dictFind (extract_san_ip dns cache sans).result s).getD "0.0.0.0")))
    (l : List String) :
    ∀ (st : ScanState),
      (∀ key recs, dictFind st.data key = some recs → ∀ r ∈ recs, P r) →
      ∀ key recs,
        dictFind (List.foldl (scanStep net parse dns ts) st l).data key = some recs →
        ∀ r ∈ recs, P r := by
  induction l with
  | nil => intro st h; exact h
  | cons t rest ih =>
    intro st h
    rw [List.foldl_cons]
    refine ih (scanStep net parse dns ts st t) ?_
    intro key recs hfind r hr
    rw [scanStep_eq] at hfind
    by_cases hy : yieldsSan net parse t = true
    · simp only [hy, if_pos] at hfind
      by_cases hk : t ++ ":443" = key
      · subst hk
        rw [dictFind_insert_self] at hfind
        cases hfind
        rcases mem_mkSanRecords _ _ _ r hr with ⟨s, hs, he⟩
        subst he
        exact hP st.cache (sanListOf net parse t) s hs
      · rw [dictFind_insert_ne _ _ _ _ hk] at hfind
        exact h key recs hfind r hr
    · simp only [hy, if_neg, Bool.false_eq_true, not_false_eq_true] at hfind
      exact h key recs hfind r hr

/-- Every record sequence stored by a scan fold is non-empty. -/
theorem scanFold_data_vals_nonempty (net : String → Except NetErr String)
    (parse : String → Option X509Cert) (dns : String → Option String)
    (ts : List String) (l : List String) :
    ∀ (st : ScanState),
      (∀ key recs, dictFind st.data key = some recs → recs ≠ []) →
      ∀ key recs,
        dictFind (List.foldl (scanStep net parse dns ts) st l).data key = some recs →
        recs ≠ [] := by
  induction l with
  | nil => intro st h; exact h
  | cons t rest ih =>
    intro st h
    rw [List.foldl_cons]
    refine ih (scanStep net parse dns ts st t) ?_
    intro key recs hfind
    rw [scanStep_eq] at hfind
    by_cases hy : yieldsSan net parse t = true
    · simp only [hy, if_pos] at hfind
      by_cases hk : t ++ ":443" = key
      · subst hk
        rw [dictFind_insert_self] at hfind
        cases hfind
        have hlen : 0 < (sanListOf net parse t).length :=
          yieldsSan_length_pos net parse t hy
        intro he
        rw [← mkSanRecords_length ts
          (extract_san_ip dns st.cache (sanListOf net parse t)).result
          (sanListOf net parse t), he] at hlen
        simp at hlen
      · rw [dictFind_insert_ne _ _ _ _ hk] at hfind
        exact h key recs hfind
    · simp only [hy, if_neg, Bool.false_eq_true, not_false_eq_true] at hfind
      exact h key recs hfind

/-- Classifying a sentinel address never flags a new host. -/
theorem classifySan_sentinel (ts : List String) (s : String) :
    (classifySan ts s "0.0.0.0").IS_NEW_HOST = false := by
  simp [classifySan]

/-- Scan-level version: every DNS lookup the whole scan issues is for a
non-wildcard name. -/
theorem scanFold_dnsLog_no_wild (net : String → Except NetErr String)
    (parse : String → Option X509Cert) (dns : String → Option String)
    (ts : List String) (l : List String) :
    ∀ (st : ScanState), (∀ q ∈ st.dnsLog, strIn "*" q = false) →
      ∀ q ∈ (List.foldl (scanStep net parse dns ts) st l).dnsLog,
        strIn "*" q = false := by
  induction l with
  | nil => intro st h; exact h
  | cons t rest ih =>
    intro st h
    rw [List.foldl_cons]
    refine ih _ ?_
    intro q hq
    rw [scanStep_eq] at hq
    by_cases hy : yieldsSan net parse t = true
    · simp only [hy, if_pos] at hq
      rcases List.mem_append.mp hq with h1 | h1
      · exact h q h1
      · refine sanIpFold_dnsLog_no_wild dns (sanListOf net parse t)
          ⟨[], st.cache, []⟩ ?_ q h1
        intro q2 hq2
        simp at hq2
    · simp only [hy, if_neg, Bool.false_eq_true, not_false_eq_true] at hq
      exact h q hq

/-! ### Concrete test scenario (network, parser and DNS oracles) -/

/-- A network in which only `10.0.0.1` completes a TLS handshake. -/
def netW : String → Except NetErr String := fun h =>
  if h = "10.0.0.1" then Except.ok "PEM1" else Except.error NetErr.refused

/-- The certificate `10.0.0.1` serves: one SAN extension whose text dump
carries plain, wildcard, duplicate and `IP Address`-tagged entries. -/
def certW : X509Cert :=
  ⟨[⟨"subjectAltName",
     "DNS:api.example.com, DNS:*.example.com, DNS:api.example.com, IP Address:10.0.0.2, DNS:dead.example.com"⟩]⟩

/-- The parse oracle: only `PEM1` parses. -/
def parseW : String → Option X509Cert := fun c =>
  if c = "PEM1" then some certW else none

/-- The DNS oracle: only `api.example.com` resolves. -/
def dnsW : String → Option String := fun n =>
  if n = "api.example.com" then some "10.0.0.3" else none

/-- The original target list of the scenario. -/
def targetsW : List String := ["10.0.0.1", "10.0.0.2"]

/-- A certificate whose single SAN entry carries the long `IP Address:`
type tag. -/
def certCE : X509Cert :=
  ⟨[⟨"subjectAltName", "IP Address:93.184.216.34"⟩]⟩

/-- The parse oracle of the `IP Address:` tag example. -/
def parseCE : String → Option X509Cert := fun c =>
  if c = "PEMCE" then some certCE else none

/-- A certificate with two `DNS:`-tagged SAN entries. -/
def certDT : X509Cert :=
  ⟨[⟨"subjectAltName", "DNS:example.org, DNS:www.example.org"⟩]⟩

/-- The parse oracle of the `DNS:` tag example. -/
def parseDT : String → Option X509Cert := fun c =>
  if c = "PEMDT" then some certDT else none

/-- The records the scenario's scan stores under `10.0.0.1:443`. -/
def recsW : List SanInfos :=
  [⟨"api.example.com", "10.0.0.3", true⟩,
   ⟨"*.example.com", "0.0.0.0", false⟩,
   ⟨"api.example.com", "10.0.0.3", true⟩,
   ⟨"ddress:10.0.0.2", "0.0.0.0", false⟩,
   ⟨"dead.example.com", "0.0.0.0", false⟩]

theorem runScan_scenario_eval :
    runScan netW parseW dnsW targetsW =
      ⟨[("10.0.0.1:443", recsW)],
       [("api.example.com", "10.0.0.3")],
       ["api.example.com", "ddress:10.0.0.2", "dead.example.com"],
       ["10.0.0.1", "10.0.0.2"]⟩ := by decide

/-! ### The claims -/

/-- C1: every DiscoveryRecord the scan stores has `isNewHost = true`
exactly when its resolved address is neither the `0.0.0.0` unresolved
sentinel nor (by literal string equality) a member of the original
target list — the sentinel check comes first, then the membership check,
and everything else defaults to false. -/
theorem C1_isNewHost_iff (net : String → Except NetErr String)
    (parse : String → Option X509Cert) (dns : String → Option String)
    (ts : List String) (key : String) (recs : List SanInfos) (r : SanInfos)
    (hfind : dictFind (runScan net parse dns ts).data key = some recs)
    (hr : r ∈ recs) :
    r.IS_NEW_HOST = true ↔ (r.IP ≠ "0.0.0.0" ∧ r.IP ∉ ts) := by
  unfold runScan at hfind
  refine scanFold_records_prop net parse dns ts
    (fun r => (r.IS_NEW_HOST = true ↔ (r.IP ≠ "0.0.0.0" ∧ r.IP ∉ ts)))
    (fun cache sans s hs => classifySan_isNewHost ts s _)
    ts scanInit ?_ key recs hfind r hr
  intro key2 recs2 h2
  simp [scanInit, dictFind] at h2

/-- C1 witness: the duplicate `api.example.com` record of the concrete
scenario, resolved to `10.0.0.3`, is flagged as a new host, consistently
with the iff. -/
theorem C1_isNewHost_iff_witness :
    ((⟨"api.example.com", "10.0.0.3", true⟩ : SanInfos).IS_NEW_HOST = true ↔
      ((⟨"api.example.com", "10.0.0.3", true⟩ : SanInfos).IP ≠ "0.0.0.0" ∧
       (⟨"api.example.com", "10.0.0.3", true⟩ : SanInfos).IP ∉ targetsW)) :=
  C1_isNewHost_iff netW parseW dnsW targetsW "10.0.0.1:443" recsW
    ⟨"api.example.com", "10.0.0.3", true⟩
    (by rw [runScan_scenario_eval]; decide) (by decide)

/-- C2: a wildcard SAN entry resolves to the `0.0.0.0` sentinel
immediately — for every cache state, leaving the cache untouched and
issuing no DNS lookup — every wildcard record the scan stores carries the
sentinel with `isNewHost = false`, and no name the scan ever sends to
DNS contains `*`. -/
theorem C2_wildcard_semantics (net : String → Except NetErr String)
    (parse : String → Option X509Cert) (dns : String → Option String)
    (ts : List String) :
    (∀ (cache : List (String × String)) (s : String), strIn "*" s = true →
      extract_san_ip dns cache [s] = ⟨[(s, "0.0.0.0")], cache, []⟩) ∧
    (∀ key recs r, dictFind (runScan net parse dns ts).data key = some recs →
      r ∈ recs → strIn "*" r.SAN = true →
      r.IP = "0.0.0.0" ∧ r.IS_NEW_HOST = false) ∧
    (∀ q ∈ (runScan net parse dns ts).dnsLog, strIn "*" q = false) := by
  refine ⟨?_, ?_, ?_⟩
  · intro cache s hw
    unfold extract_san_ip
    rw [List.foldl_cons, List.foldl_nil, sanIpStep_wild dns _ s hw]
    rfl
  · intro key recs r hfind hr
    unfold runScan at hfind
    refine scanFold_records_prop net parse dns ts
      (fun r => strIn "*" r.SAN = true → r.IP = "0.0.0.0" ∧ r.IS_NEW_HOST = false)
      ?_ ts scanInit ?_ key recs hfind r hr
    · intro cache sans s hs hw
      have hres :
          dictFind (extract_san_ip dns cache sans).result s = none ∨
          dictFind (extract_san_ip dns cache sans).result s = some "0.0.0.0" :=
        sanIpFold_result_wild dns sans s hw ⟨[], cache, []⟩ (Or.inl rfl)
      have hip : (dictFind (extract_san_ip dns cache sans).result s).getD "0.0.0.0" =
          "0.0.0.0" := by
        rcases hres with h | h <;> rw [h] <;> rfl
      constructor
      · exact hip
      · rw [show (classifySan ts s
            ((dictFind (extract_san_ip dns cache sans).result s).getD "0.0.0.0")) =
            classifySan ts s "0.0.0.0" by rw [hip]]
        exact classifySan_sentinel ts s
    · intro key2 recs2 h2
      simp [scanInit, dictFind] at h2
  · intro q hq
    unfold runScan at hq
    refine scanFold_dnsLog_no_wild net parse dns ts ts scanInit ?_ q hq
    intro q2 hq2
    simp [scanInit] at hq2

/-- C2 witness: in the concrete scenario the wildcard record
`*.example.com` carries the sentinel and is not flagged, and the wildcard
resolution leaves an arbitrary chosen cache untouched. -/
theorem C2_wildcard_semantics_witness :
    (extract_san_ip dnsW [("cached.example.com", "10.9.9.9")] ["*.example.com"] =
      ⟨[("*.example.com", "0.0.0.0")], [("cached.example.com", "10.9.9.9")], []⟩) ∧
    ((⟨"*.example.com", "0.0.0.0", false⟩ : SanInfos).IP = "0.0.0.0" ∧
     (⟨"*.example.com", "0.0.0.0", false⟩ : SanInfos).IS_NEW_HOST = false) :=
  ⟨(C2_wildcard_semantics netW parseW dnsW targetsW).1
      [("cached.example.com", "10.9.9.9")] "*.example.com" (by decide),
   (C2_wildcard_semantics netW parseW dnsW targetsW).2.1 "10.0.0.1:443" recsW
      ⟨"*.example.com", "0.0.0.0", false⟩
      (by rw [runScan_scenario_eval]; decide) (by decide) (by decide)⟩

/-- C8: certificate fetching is a total function of the network outcome:
every failure is folded into the absence value `none`, and a successful
handshake returns exactly the peer's PEM certificate. -/
theorem C8_fetch_totalizes (net : String → Except NetErr String) (host : String) :
    (∀ e, net host = Except.error e → extract_tls_cert net host = none) ∧
    (∀ c, net host = Except.ok c → extract_tls_cert net host = some c) := by
  constructor
  · intro e he
    unfold extract_tls_cert
    rw [he]
  · intro c hc
    unfold extract_tls_cert
    rw [hc]

/-- C8 witness: in the concrete scenario the refused target yields no
certificate and the good target yields its PEM. -/
theorem C8_fetch_totalizes_witness :
    extract_tls_cert netW "10.0.0.2" = none ∧
    extract_tls_cert netW "10.0.0.1" = some "PEM1" :=
  ⟨(C8_fetch_totalizes netW "10.0.0.2").1 NetErr.refused (by rfl),
   (C8_fetch_totalizes netW "10.0.0.1").2 "PEM1" (by rfl)⟩

/-- Appending through a fold is mapping. -/
theorem foldl_append_singleton (f : String → String) (l : List String) :
    ∀ acc : List String, l.foldl (fun acc d => acc ++ [f d]) acc = acc ++ l.map f := by
  induction l with
  | nil => intro acc; simp
  | cons x rest ih => intro acc; simp [List.foldl_cons, ih]

/-- C3: at the failing input (SAN list `["dead.example.com",
"dead.example.com"]`, a DNS oracle with no answer for the name, an empty
cache) the resolver returns the `0.0.0.0` sentinel but stores nothing in
the cache, and the second resolution of the very same name issues a
second DNS lookup — the run's DNS log holds the name twice. -/
theorem C3_failure_not_cached_eval :
    extract_san_ip dnsW [] ["dead.example.com", "dead.example.com"] =
      ⟨[("dead.example.com", "0.0.0.0")], [],
       ["dead.example.com", "dead.example.com"]⟩ := by decide

/-- C4 counterexample: a SAN extension whose single entry carries the
`IP Address:` type tag. The code removes exactly 4 characters, so the
returned entry `ddress:93.184.216.34` still contains part of the tag —
it is not the bare name `93.184.216.34`. -/
theorem C4_counterexample_tag_not_removed :
    extract_subject_alternate_name_list parseCE "PEMCE" =
      some ["ddress:93.184.216.34"] ∧
    "ddress:93.184.216.34" ≠ bareName "IP Address:93.184.216.34" ∧
    bareName "IP Address:93.184.216.34" = "93.184.216.34" := by decide

/-- C4 (amended): SAN extraction splits the extension's textual
representation on commas and removes exactly the first 4 characters of
each whitespace-stripped entry; an entry whose stripped form carries the
4-character `DNS:` tag therefore becomes its bare name, while a longer
tag is only partially removed. -/
theorem C4_split_and_fixed_width_drop (parse : String → Option X509Cert)
    (pem : String) (x : X509Cert) (e : X509Ext)
    (hp : parse pem = some x) (hx : x.extensions = [e])
    (hn : strIn "subjectAltName" e.shortName = true) :
    extract_subject_alternate_name_list parse pem =
      some ((pySplit ',' e.text).map (fun d => pyDrop 4 (pyStrip d))) ∧
    (∀ d name : String, pyStrip d = "DNS:" ++ name → pyDrop 4 (pyStrip d) = name) := by
  constructor
  · simp only [extract_subject_alternate_name_list, hp, hx, List.foldl_cons,
      List.foldl_nil, hn, if_true]
    rw [foldl_append_singleton]
    rw [List.nil_append]
  · intro d name h
    rw [h]
    show String.mk (("DNS:".data ++ name.data).drop 4) = name
    rfl

/-- C4 witness: on a certificate with two `DNS:`-tagged entries the
extraction returns exactly the comma-split, stripped, 4-character-dropped
entries. -/
theorem C4_split_and_fixed_width_drop_witness :
    extract_subject_alternate_name_list parseDT "PEMDT" =
      some ((pySplit ',' "DNS:example.org, DNS:www.example.org").map
        (fun d => pyDrop 4 (pyStrip d))) :=
  (C4_split_and_fixed_width_drop parseDT "PEMDT" certDT
    ⟨"subjectAltName", "DNS:example.org, DNS:www.example.org"⟩
    (by rfl) (by rfl) (by decide)).1

/-- C5: after a successful first resolution of a non-wildcard name the
value is cached; a second resolution returns the identical cached value
and issues no DNS lookup; an existing cache entry is never overwritten by
any later resolution; and the cache keeps at most one entry per distinct
SAN string. -/
theorem C5_cache_write_once (dns : String → Option String)
    (c : List (String × String)) (s v : String)
    (hw : strIn "*" s = false) (hmiss : dictFind c s = none) (hd : dns s = some v) :
    extract_san_ip dns c [s] = ⟨[(s, v)], dictInsert c s v, [s]⟩ ∧
    extract_san_ip dns (dictInsert c s v) [s] =
      ⟨[(s, v)], dictInsert c s v, []⟩ ∧
    (∀ (l : List String) (k w : String), dictFind c k = some w →
      dictFind (extract_san_ip dns c l).cache k = some w) ∧
    (∀ (l : List String), (dictKeys c).Nodup →
      (dictKeys (extract_san_ip dns c l).cache).Nodup) := by
  refine ⟨?_, ?_, ?_, ?_⟩
  · unfold extract_san_ip
    rw [List.foldl_cons, List.foldl_nil,
        sanIpStep_miss_ok dns ⟨[], c, []⟩ s v hw hmiss hd]
    simp [dictInsert]
  · unfold extract_san_ip
    rw [List.foldl_cons, List.foldl_nil,
        sanIpStep_hit dns ⟨[], dictInsert c s v, []⟩ s v hw
          (dictFind_insert_self c s v)]
    simp [dictInsert]
  · intro l k w hk
    exact sanIpFold_cache_mono dns l ⟨[], c, []⟩ k w hk
  · intro l hnd
    exact sanIpFold_cache_nodup dns l ⟨[], c, []⟩ hnd

/-- C5 witness: the second resolution of `api.example.com` is a pure
cache hit — the cached `10.0.0.3` comes back and the DNS log stays
empty. -/
theorem C5_cache_write_once_witness :
    extract_san_ip dnsW (dictInsert [] "api.example.com" "10.0.0.3")
        ["api.example.com"] =
      ⟨[("api.example.com", "10.0.0.3")],
       dictInsert [] "api.example.com" "10.0.0.3", []⟩ :=
  (C5_cache_write_once dnsW [] "api.example.com" "10.0.0.3"
    (by decide) (by rfl) (by rfl)).2.1

/-- C10: the per-call result of `extract_san_ip` is a dictionary keyed
by the SAN string — its keys are pairwise distinct and are exactly the
SANs of the list, so duplicate occurrences collapse to a single key and
any two records built for equal SAN strings receive the identical
resolved address; and a failing non-wildcard lookup returns the
`0.0.0.0` sentinel for that call while caching nothing. -/
theorem C10_result_keyed_by_san (dns : String → Option String)
    (cache : List (String × String)) (sans : List String) (ts : List String) :
    (dictKeys (extract_san_ip dns cache sans).result).Nodup ∧
    (∀ s, s ∈ dictKeys (extract_san_ip dns cache sans).result ↔ s ∈ sans) ∧
    (∀ r r', r ∈ mkSanRecords ts (extract_san_ip dns cache sans).result sans →
      r' ∈ mkSanRecords ts (extract_san_ip dns cache sans).result sans →
      r.SAN = r'.SAN → r.IP = r'.IP) ∧
    (∀ s, strIn "*" s = false → dictFind cache s = none → dns s = none →
      extract_san_ip dns cache [s] = ⟨[(s, "0.0.0.0")], cache, [s]⟩) := by
  refine ⟨?_, ?_, ?_, ?_⟩
  · exact sanIpFold_result_nodup dns sans ⟨[], cache, []⟩ (by simp [dictKeys])
  · intro s
    rw [show (extract_san_ip dns cache sans) =
        List.foldl (sanIpStep dns) ⟨[], cache, []⟩ sans from rfl]
    rw [sanIpFold_result_mem]
    simp [dictKeys]
  · intro r r' hr hr' hsan
    rcases mem_mkSanRecords ts _ sans r hr with ⟨s1, hs1, he1⟩
    rcases mem_mkSanRecords ts _ sans r' hr' with ⟨s2, hs2, he2⟩
    subst he1
    subst he2
    rw [classifySan_SAN, classifySan_SAN] at hsan
    subst hsan
    rfl
  · intro s hw hmiss hd
    unfold extract_san_ip
    rw [List.foldl_cons, List.foldl_nil,
        sanIpStep_miss_fail dns ⟨[], cache, []⟩ s hw hmiss hd]
    simp [dictInsert]

/-- C10 witness: duplicate SANs collapse to one result key, and a
failing lookup yields the sentinel for the call with an empty cache
afterwards. -/
theorem C10_result_keyed_by_san_witness :
    (dictKeys (extract_san_ip dnsW [] ["api.example.com", "api.example.com"]).result).Nodup ∧
    extract_san_ip dnsW [] ["dud.example.com"] =
      ⟨[("dud.example.com", "0.0.0.0")], [], ["dud.example.com"]⟩ :=
  ⟨(C10_result_keyed_by_san dnsW [] ["api.example.com", "api.example.com"] targetsW).1,
   (C10_result_keyed_by_san dnsW [] ["dud.example.com"] targetsW).2.2.2
     "dud.example.com" (by decide) (by rfl) (by rfl)⟩

/-- Appending the fixed `":443"` suffix is injective on targets. -/
theorem key_append_cancel (t t' : String) (h : t ++ ":443" = t' ++ ":443") :
    t = t' := by
  have hd := congrArg String.data h
  simp [String.data_append] at hd
  exact String.ext hd

/-- The record sequence stored under a target's key always lists exactly
that target's extracted SANs, in order. -/
theorem scanFold_data_val_mapSAN (net : String → Except NetErr String)
    (parse : String → Option X509Cert) (dns : String → Option String)
    (ts : List String) (l : List String) :
    ∀ (st : ScanState),
      (∀ (t : String) (recs : List SanInfos),
        dictFind st.data (t ++ ":443") = some recs →
        recs.map (fun r => r.SAN) = sanListOf net parse t) →
      ∀ (t : String) (recs : List SanInfos),
        dictFind (List.foldl (scanStep net parse dns ts) st l).data (t ++ ":443") =
          some recs →
        recs.map (fun r => r.SAN) = sanListOf net parse t := by
  induction l with
  | nil => intro st h; exact h
  | cons t0 rest ih =>
    intro st h
    rw [List.foldl_cons]
    refine ih _ ?_
    intro t recs hfind
    rw [scanStep_eq] at hfind
    by_cases hy : yieldsSan net parse t0 = true
    · simp only [hy, if_pos] at hfind
      by_cases hk : t0 ++ ":443" = t ++ ":443"
      · have ht : t0 = t := key_append_cancel t0 t hk
        subst ht
        rw [dictFind_insert_self] at hfind
        cases hfind
        exact mkSanRecords_map_SAN ts _ _
      · rw [dictFind_insert_ne _ _ _ _ hk] at hfind
        exact h t recs hfind
    · simp only [hy, if_neg, Bool.false_eq_true, not_false_eq_true] at hfind
      exact h t recs hfind

/-- C6: a target of the scan list appears in the result mapping — under
the key obtained by appending `":443"` — exactly when its certificate
fetch succeeds and SAN extraction yields a non-empty entry list; and no
key of the mapping ever holds an empty record sequence. -/
theorem C6_presence_iff (net : String → Except NetErr String)
    (parse : String → Option X509Cert) (dns : String → Option String)
    (ts : List String) (t : String) (ht : t ∈ ts) :
    ((t ++ ":443") ∈ dictKeys (runScan net parse dns ts).data ↔
      yieldsSan net parse t = true) ∧
    (∀ key recs, dictFind (runScan net parse dns ts).data key = some recs →
      recs ≠ []) := by
  constructor
  · unfold runScan
    rw [scanFold_data_keys]
    constructor
    · rintro (hk | ⟨t', ht', hk, hy⟩)
      · simp [scanInit, dictKeys] at hk
      · rw [key_append_cancel t t' hk]
        exact hy
    · intro hy
      exact Or.inr ⟨t, ht, rfl, hy⟩
  · intro key recs hfind
    unfold runScan at hfind
    refine scanFold_data_vals_nonempty net parse dns ts ts scanInit ?_ key recs hfind
    intro key2 recs2 h2
    simp [scanInit, dictFind] at h2

/-- C6 witness: in the concrete scenario the handshaking target is
present under `10.0.0.1:443` (it yields SAN entries) and the refused
target `10.0.0.2` is absent. -/
theorem C6_presence_iff_witness :
    (("10.0.0.1" ++ ":443") ∈ dictKeys (runScan netW parseW dnsW targetsW).data ↔
      yieldsSan netW parseW "10.0.0.1" = true) ∧
    (("10.0.0.2" ++ ":443") ∈ dictKeys (runScan netW parseW dnsW targetsW).data ↔
      yieldsSan netW parseW "10.0.0.2" = true) :=
  ⟨(C6_presence_iff netW parseW dnsW targetsW "10.0.0.1" (by decide)).1,
   (C6_presence_iff netW parseW dnsW targetsW "10.0.0.2" (by decide)).1⟩

/-- C7: the record sequence stored for a target whose certificate parses
to a SAN list holds exactly one record per SAN occurrence, carrying the
SANs in extraction order, duplicates included. -/
theorem C7_one_record_per_san (net : String → Except NetErr String)
    (parse : String → Option X509Cert) (dns : String → Option String)
    (ts : List String) (t cert : String) (sans : List String)
    (recs : List SanInfos)
    (hc : extract_tls_cert net t = some cert)
    (hs : extract_subject_alternate_name_list parse cert = some sans)
    (hfind : dictFind (runScan net parse dns ts).data (t ++ ":443") = some recs) :
    recs.map (fun r => r.SAN) = sans := by
  unfold runScan at hfind
  have h := scanFold_data_val_mapSAN net parse dns ts ts scanInit ?_ t recs hfind
  · rw [h]
    simp only [sanListOf, hc, hs, Option.getD_some]
  · intro t2 recs2 h2
    simp [scanInit, dictFind] at h2

/-- C7 witness: the scenario's certificate lists five SAN occurrences
(one of them a duplicate) and the stored records carry exactly those, in
order. -/
theorem C7_one_record_per_san_witness :
    recsW.map (fun r => r.SAN) =
      ["api.example.com", "*.example.com", "api.example.com",
       "ddress:10.0.0.2", "dead.example.com"] :=
  C7_one_record_per_san netW parseW dnsW targetsW "10.0.0.1" "PEM1"
    ["api.example.com", "*.example.com", "api.example.com",
     "ddress:10.0.0.2", "dead.example.com"] recsW
    (by rfl) (by decide) (by rw [runScan_scenario_eval]; decide)

/-- C9: every occurrence of a duplicated target is processed (the fetch
log lists the whole scan list), and the mapping's value under the
target's key after the scan is exactly the record sequence computed by
the last occurrence — `data[key] = []` resets the key, so earlier
occurrences' records are discarded, not appended to. -/
theorem C9_last_occurrence_wins (net : String → Except NetErr String)
    (parse : String → Option X509Cert) (dns : String → Option String)
    (pre : List String) (t : String)
    (hy : yieldsSan net parse t = true) :
    (runScan net parse dns (pre ++ [t])).fetchLog = pre ++ [t] ∧
    dictFind (runScan net parse dns (pre ++ [t])).data (t ++ ":443") =
      some (mkSanRecords (pre ++ [t])
        (extract_san_ip dns
          (List.foldl (scanStep net parse dns (pre ++ [t])) scanInit pre).cache
          (sanListOf net parse t)).result
        (sanListOf net parse t)) := by
  constructor
  · unfold runScan
    rw [scanFold_fetchLog]
    rfl
  · unfold runScan
    rw [List.foldl_append, List.foldl_cons, List.foldl_nil, scanStep_eq]
    simp only [hy, if_pos]
    exact dictFind_insert_self _ _ _

/-- C9 witness: scanning `["10.0.0.1", "10.0.0.1"]` processes both
occurrences and stores under `10.0.0.1:443` exactly the records of the
second occurrence. -/
theorem C9_last_occurrence_wins_witness :
    (runScan netW parseW dnsW (["10.0.0.1"] ++ ["10.0.0.1"])).fetchLog =
      ["10.0.0.1"] ++ ["10.0.0.1"] ∧
    dictFind (runScan netW parseW dnsW (["10.0.0.1"] ++ ["10.0.0.1"])).data
        ("10.0.0.1" ++ ":443") =
      some (mkSanRecords (["10.0.0.1"] ++ ["10.0.0.1"])
        (extract_san_ip dnsW
          (List.foldl (scanStep netW parseW dnsW (["10.0.0.1"] ++ ["10.0.0.1"]))
            scanInit ["10.0.0.1"]).cache
          (sanListOf netW parseW "10.0.0.1")).result
        (sanListOf netW parseW "10.0.0.1")) :=
  C9_last_occurrence_wins netW parseW dnsW ["10.0.0.1"] "10.0.0.1" (by decide)

end TlsCertDiscovery
